import Mathlib

/-!
# Shallow embedding of the ExpertSystem rule-evaluation engine

This development embeds the Python sources of the `ExpertSystem`
repository (package `expert_system`: `fact_base.py`, `rule.py`,
`condition/base.py`, `condition/evaluators.py`, `action/base.py`,
`base.py`, `student.py`) as executable Lean definitions and proves
properties of the engine against them.

Modelling conventions:
* Python values flowing through the engine are modelled by the inductive
  `Value` (numbers as `ℚ`, strings, booleans, `None`, lists/tuples, and an
  opaque `obj` standing for a non-data Python object such as the engine
  instance itself).
* Python exceptions are modelled with `Except PyErr`; a function that can
  raise returns `Except PyErr α`.
* Python `dict`s keyed by strings are association lists with unique keys;
  updating an existing key keeps its position, a new key is appended
  (insertion order), matching CPython `dict` semantics.
* Mutation of `self` becomes explicit state passing on `ExpertSystem`.
  The two registries (function-valued fields of the Python object) are
  passed as separate arguments so that handler functions may take the
  engine state without a negative occurrence.
-/

namespace Expert

/-- A Python runtime exception, by class and message. -/
inductive PyErr where
  | valueError (msg : String)
  | typeError (msg : String)
  | keyError (key : String)
  | attributeError (msg : String)
deriving DecidableEq

/-- A Python value as used by the engine: numbers (modelled as `ℚ`),
strings, booleans, `None`, lists/tuples, and an opaque object reference
(used for non-data arguments such as the engine instance itself). -/
inductive Value where
  | none
  | num (q : ℚ)
  | str (s : String)
  | bool (b : Bool)
  | list (l : List Value)
  | obj

/-- Python `==` (structural comparison; `bool` compares equal to the
numbers `0`/`1` as in Python, where `bool` is an `int` subclass; distinct
types otherwise compare unequal; `obj` values are the same single object
reference, hence identical). -/
def pyEq : Value → Value → Bool
  | .none, .none => true
  | .num a, .num b => a == b
  | .str a, .str b => a == b
  | .bool a, .bool b => a == b
  | .bool a, .num b => (if a then (1 : ℚ) else 0) == b
  | .num a, .bool b => a == (if b then (1 : ℚ) else 0)
  | .list a, .list b => pyEqList a b
  | .obj, .obj => true
  | _, _ => false
where
  /-- Elementwise Python `==` on lists. -/
  pyEqList : List Value → List Value → Bool
  | [], [] => true
  | a :: as, b :: bs => pyEq a b && pyEqList as bs
  | _, _ => false

/-- Python truthiness of an optional stored value (`dict.get` returns
`None` when the key is absent): `None`, `0`, `""`, `False` and `[]` are
falsy, everything else is truthy. -/
def truthy : Option Value → Bool
  | .none => false
  | some .none => false
  | some (.num q) => q != 0
  | some (.str s) => s != ""
  | some (.bool b) => b
  | some (.list l) => !l.isEmpty
  | some .obj => true

/-- `d[k]` lookup on a string-keyed Python dict (association list). -/
def dictGet? {α : Type} (d : List (String × α)) (k : String) : Option α :=
  (d.find? (fun p => p.1 == k)).map Prod.snd

/-- `d[k] = v` on a Python dict: replace in place if the key exists,
append otherwise. -/
def dictSet {α : Type} (d : List (String × α)) (k : String) (v : α) :
    List (String × α) :=
  if (d.find? (fun p => p.1 == k)).isSome then
    d.map (fun p => if p.1 == k then (k, v) else p)
  else
    d ++ [(k, v)]

/-! ## `fact_base.py` : class `FactBase` -/

/-- The internal `_facts` dict of a `FactBase`. -/
abbrev FactBase := List (String × Value)

/-- `FactBase.set(name, value, overwrite=True)`:
`if not self._facts.get(name) or overwrite: self._facts[name] = value`. -/
def FactBase.set (fb : FactBase) (name : String) (value : Value)
    (overwrite : Bool := true) : FactBase :=
  if !truthy (dictGet? fb name) || overwrite then dictSet fb name value else fb

/-- `FactBase.get(name, fallback=None)`. -/
def FactBase.get (fb : FactBase) (name : String)
    (fallback : Value := .none) : Value :=
  (dictGet? fb name).getD fallback

/-- `FactBase.has(name)`: `name in self._facts`. -/
def FactBase.has (fb : FactBase) (name : String) : Bool :=
  (dictGet? fb name).isSome

/-- `FactBase.update(facts)`: `self._facts.update(facts)`. -/
def FactBase.update (fb : FactBase) (facts : List (String × Value)) :
    FactBase :=
  facts.foldl (fun d p => dictSet d p.1 p.2) fb

/-- `FactBase.clear()`. -/
def FactBase.clear (_fb : FactBase) : FactBase := []

/-- `FactBase.all()` (returns a copy; in the value model the copy is the
value itself). -/
def FactBase.all (fb : FactBase) : FactBase := fb

/-! ## Python comparison operators used by `condition/evaluators.py`

Numbers (with `bool` coerced as `0`/`1`, as in Python) and strings support
ordering; other operand combinations raise `TypeError`.  (Python also
orders lists elementwise; no evaluator in this repository is exercised on
lists, and that case is conservatively modelled as `TypeError`.) -/

/-- Numeric view of a value: Python treats `bool` as an `int`. -/
def toNum? : Value → Option ℚ
  | .num q => some q
  | .bool b => some (if b then 1 else 0)
  | _ => Option.none

/-- Lexicographic `<` on char lists (Python string ordering). -/
def charListLt : List Char → List Char → Bool
  | [], [] => false
  | [], _ :: _ => true
  | _ :: _, [] => false
  | a :: as, b :: bs =>
    if a < b then true else if b < a then false else charListLt as bs

/-- Python `a < b`. -/
def pyLt (a b : Value) : Except PyErr Bool :=
  match toNum? a, toNum? b with
  | some x, some y => .ok (decide (x < y))
  | _, _ =>
    match a, b with
    | .str x, .str y => .ok (charListLt x.toList y.toList)
    | _, _ => .error (.typeError "unsupported operand types for comparison")

/-- Python `a <= b`. -/
def pyLe (a b : Value) : Except PyErr Bool :=
  match toNum? a, toNum? b with
  | some x, some y => .ok (decide (x ≤ y))
  | _, _ =>
    match a, b with
    | .str x, .str y => .ok (charListLt x.toList y.toList || x == y)
    | _, _ => .error (.typeError "unsupported operand types for comparison")

/-! ## `condition/evaluators.py` : the built-in evaluators -/

/-- The type of a registered condition evaluator: called on
`(fact_value, expected_value)`, may raise. -/
abbrev EvalFn := Value → Value → Except PyErr Bool

namespace NumericRangeEvaluator

/-- `between`: `min_val, max_val = expected_value;
return min_val <= fact_value < max_val`.  Unpacking a non-sequence raises
`TypeError`; a sequence of length other than two raises `ValueError`.
The chained comparison short-circuits as in Python. -/
def between (fact_value expected_value : Value) : Except PyErr Bool :=
  match expected_value with
  | .list [min_val, max_val] =>
    match pyLe min_val fact_value with
    | .error e => .error e
    | .ok false => .ok false
    | .ok true => pyLt fact_value max_val
  | .list _ => .error (.valueError "not enough values to unpack")
  | _ => .error (.typeError "cannot unpack non-sequence")

/-- `gte`: `fact_value >= expected_value` (Python `a >= b` agrees with
`b <= a` on numbers and strings). -/
def gte (fact_value expected_value : Value) : Except PyErr Bool :=
  pyLe expected_value fact_value

/-- `lte`: `fact_value <= expected_value`. -/
def lte (fact_value expected_value : Value) : Except PyErr Bool :=
  pyLe fact_value expected_value

/-- `gt`: `fact_value > expected_value`. -/
def gt (fact_value expected_value : Value) : Except PyErr Bool :=
  pyLt expected_value fact_value

/-- `lt`: `fact_value < expected_value`. -/
def lt (fact_value expected_value : Value) : Except PyErr Bool :=
  pyLt fact_value expected_value

end NumericRangeEvaluator

namespace LogicalEvaluator

/-- `eq`: `fact_value == expected_value` (never raises). -/
def eq (fact_value expected_value : Value) : Except PyErr Bool :=
  .ok (pyEq fact_value expected_value)

/-- `neq`: `fact_value != expected_value` (never raises). -/
def neq (fact_value expected_value : Value) : Except PyErr Bool :=
  .ok (!pyEq fact_value expected_value)

/-- Prefix test on char lists. -/
def charListPrefix : List Char → List Char → Bool
  | [], _ => true
  | _ :: _, [] => false
  | a :: as, b :: bs => a == b && charListPrefix as bs

/-- Contiguous-occurrence test on char lists. -/
def charListSeg : List Char → List Char → Bool
  | t, [] => charListPrefix t []
  | t, b :: bs => charListPrefix t (b :: bs) || charListSeg t bs

/-- Substring test used for Python `t in s` on strings. -/
def strContains (s t : String) : Bool :=
  charListSeg t.toList s.toList

/-- `in_list`: `fact_value in expected_value`; membership in a list, or
substring test when both sides are strings; otherwise `TypeError`. -/
def in_list (fact_value expected_value : Value) : Except PyErr Bool :=
  match expected_value with
  | .list l => .ok (l.any (fun x => pyEq fact_value x))
  | .str s =>
    match fact_value with
    | .str t => .ok (strContains s t)
    | _ => .error (.typeError "in requires string as left operand")
  | _ => .error (.typeError "argument is not iterable")

/-- `contains`: `expected_value in fact_value` (reversed `in`). -/
def contains (fact_value expected_value : Value) : Except PyErr Bool :=
  match fact_value with
  | .list l => .ok (l.any (fun x => pyEq expected_value x))
  | .str s =>
    match expected_value with
    | .str t => .ok (strContains s t)
    | _ => .error (.typeError "in requires string as left operand")
  | _ => .error (.typeError "argument is not iterable")

end LogicalEvaluator

/-! ## `condition/evaluators.py` : class `ConditionRegistry` -/

/-- Registry for all available condition evaluators (the `_evaluators`
dict). -/
structure ConditionRegistry where
  evaluators : List (String × EvalFn)

/-- `ConditionRegistry.register(name, evaluator)`:
`self._evaluators[name] = evaluator`. -/
def ConditionRegistry.register (r : ConditionRegistry) (name : String)
    (evaluator : EvalFn) : ConditionRegistry :=
  ⟨dictSet r.evaluators name evaluator⟩

/-- `ConditionRegistry.get(name)`: raises
`ValueError(f"Unknown operator: {name}")` when absent. -/
def ConditionRegistry.get (r : ConditionRegistry) (name : String) :
    Except PyErr EvalFn :=
  match dictGet? r.evaluators name with
  | some f => .ok f
  | _ => .error (.valueError ("Unknown operator: " ++ name))

/-- `ConditionRegistry.has(name)`. -/
def ConditionRegistry.has (r : ConditionRegistry) (name : String) : Bool :=
  (dictGet? r.evaluators name).isSome

/-- `ConditionRegistry._register_defaults`, line for line.  Note the
second `eq` line: the source registers `LogicalEvaluator.neq` under the
key `LogicalEvaluator.eq.__name__`, i.e. under `"eq"`
(`evaluators.py` line 83), so `"eq"` ends up mapped to the inequality
predicate and the key `"neq"` is never registered. -/
def ConditionRegistry.registerDefaults (r : ConditionRegistry) :
    ConditionRegistry :=
  ((((((((r.register "gte" NumericRangeEvaluator.gte).register
    "lte" NumericRangeEvaluator.lte).register
    "gt" NumericRangeEvaluator.gt).register
    "lt" NumericRangeEvaluator.lt).register
    "between" NumericRangeEvaluator.between).register
    "eq" LogicalEvaluator.eq).register
    "eq" LogicalEvaluator.neq).register
    "in" LogicalEvaluator.in_list).register
    "contains" LogicalEvaluator.contains

/-- `ConditionRegistry.__init__`: empty dict, then `_register_defaults`. -/
def ConditionRegistry.new : ConditionRegistry :=
  ConditionRegistry.registerDefaults ⟨[]⟩

/-! ## `condition/base.py` : class `Condition` -/

/-- A condition triple `{fact_name, operator, value}`. -/
structure Condition where
  fact_name : String
  operator : String
  value : Value

/-- `Condition.evaluate(fact_base, registry)`:
missing fact returns `False` before any registry lookup; an unknown
operator raises out of the method (the `registry.get` call sits outside
the `try`); an exception raised by the evaluator itself is caught, logged
and turned into `False`. -/
def Condition.evaluate (c : Condition) (fact_base : FactBase)
    (registry : ConditionRegistry) : Except PyErr Bool :=
  if !(fact_base.has c.fact_name) then .ok false
  else
    match registry.get c.operator with
    | .error e => .error e
    | .ok evaluator =>
      match evaluator (fact_base.get c.fact_name) c.value with
      | .ok b => .ok b
      | .error _ => .ok false

/-! ## `action/base.py` : class `Action` and class `ActionRegistry`,
    `base.py` : class `BaseExpertSystem`,
    `rule.py` : class `Rule`

The engine object's plain-data fields (`fact_base`, `rules`,
`fired_rules`, `results`) form the state record `ExpertSystem`; the two
registries are threaded as separate arguments (they are never mutated
during a pass). -/

/-- An action `{action_type, parameters}`. -/
structure Action where
  action_type : String
  parameters : List (String × Value) := []

/-- A rule `{name, conditions, actions, priority=0, description=""}`. -/
structure Rule where
  name : String
  conditions : List Condition
  actions : List Action
  priority : Int := 0
  description : String := ""

/-- The plain-data state of a `BaseExpertSystem` instance. -/
structure ExpertSystem where
  fact_base : FactBase
  rules : List Rule
  fired_rules : List String
  results : List (String × Value)

/-- A registered action handler, modelling an arbitrary Python callable
invoked as `handler(self, **action.parameters)`: it receives the engine
state (the callable may be a bound method of the engine), the positional
argument list of the call, and the keyword arguments, and returns the
updated engine state or raises. -/
abbrev HandlerFn :=
  ExpertSystem → List Value → List (String × Value) →
    Except PyErr ExpertSystem

/-- Registry for action handlers (the `_handlers` dict). -/
structure ActionRegistry where
  handlers : List (String × HandlerFn)

/-- `ActionRegistry.register(action_type, handler)`. -/
def ActionRegistry.register (r : ActionRegistry) (action_type : String)
    (handler : HandlerFn) : ActionRegistry :=
  ⟨dictSet r.handlers action_type handler⟩

/-- `ActionRegistry.get(action_type)`: raises
`ValueError(f"Unknown action type: {action_type}")` when absent. -/
def ActionRegistry.get (r : ActionRegistry) (action_type : String) :
    Except PyErr HandlerFn :=
  match dictGet? r.handlers action_type with
  | some h => .ok h
  | _ => .error (.valueError ("Unknown action type: " ++ action_type))

/-- `ActionRegistry.has(action_type)`. -/
def ActionRegistry.has (r : ActionRegistry) (action_type : String) : Bool :=
  (dictGet? r.handlers action_type).isSome

/-- `BaseExpertSystem.execute_action(action)`:
`handler = self.action_registry.get(action.action_type);
return handler(self, **action.parameters)` — the handler is looked up
first (an unknown type raises before anything executes), then called with
the engine object as the single positional argument (modelled by the
opaque `Value.obj`) and the parameters as keyword arguments. -/
def execute_action (areg : ActionRegistry) (a : Action)
    (s : ExpertSystem) : Except PyErr ExpertSystem :=
  match areg.get a.action_type with
  | .error e => .error e
  | .ok handler => handler s [Value.obj] a.parameters

/-- `Action.execute(context)`: `context.execute_action(self)`. -/
def Action.execute (a : Action) (areg : ActionRegistry)
    (s : ExpertSystem) : Except PyErr ExpertSystem :=
  execute_action areg a s

/-- Short-circuit `all(condition.evaluate(...) for condition in ...)`
over a condition list; an evaluation that raises propagates. -/
def checkConditions (fact_base : FactBase)
    (registry : ConditionRegistry) : List Condition → Except PyErr Bool
  | [] => .ok true
  | c :: cs =>
    match c.evaluate fact_base registry with
    | .error e => .error e
    | .ok false => .ok false
    | .ok true => checkConditions fact_base registry cs

/-- `Rule.check(fact_base, registry)`:
`all(condition.evaluate(...) for condition in self.conditions)`. -/
def Rule.check (r : Rule) (fact_base : FactBase)
    (registry : ConditionRegistry) : Except PyErr Bool :=
  checkConditions fact_base registry r.conditions

/-- Left-to-right execution of an action list (the list comprehension
`[action.execute(context) for action in actions]`; the collected return
values are discarded by the engine, so only the state thread matters). -/
def execActions (areg : ActionRegistry) :
    List Action → ExpertSystem → Except PyErr ExpertSystem
  | [], s => .ok s
  | a :: as, s =>
    match a.execute areg s with
    | .error e => .error e
    | .ok s' => execActions areg as s'

/-- `Rule.execute(context)`:
`[action.execute(context) for action in self.actions]` — actions run in
declared order. -/
def Rule.execute (r : Rule) (areg : ActionRegistry) (s : ExpertSystem) :
    Except PyErr ExpertSystem :=
  execActions areg r.actions s

/-- The comparison under which `run_evaluation` orders rules:
rule `a` may come before rule `b` when `b.priority ≤ a.priority`. -/
def ruleGe (a b : Rule) : Prop := b.priority ≤ a.priority

instance : DecidableRel ruleGe := fun a b => by
  unfold ruleGe; infer_instance

/-- The rule ordering used by `run_evaluation`:
`sorted(self.rules, key=lambda r: r.priority, reverse=True)`.
CPython's `sorted` is stable and `reverse=True` preserves the original
order of equal keys, so it is embedded as a stable insertion sort under
`ruleGe`. -/
def pySortRules (rules : List Rule) : List Rule :=
  List.insertionSort ruleGe rules

/-- The body of the `for rule in sorted_rules` loop of
`run_evaluation`: check, then append the name to `fired_rules`, then
execute the actions. -/
def runRules (creg : ConditionRegistry) (areg : ActionRegistry) :
    List Rule → ExpertSystem → Except PyErr ExpertSystem
  | [], s => .ok s
  | r :: rs, s =>
    match r.check s.fact_base creg with
    | .error e => .error e
    | .ok false => runRules creg areg rs s
    | .ok true =>
      match r.execute areg
          { s with fired_rules := s.fired_rules ++ [r.name] } with
      | .error e => .error e
      | .ok s' => runRules creg areg rs s'

/-- `BaseExpertSystem.run_evaluation()`: sort a snapshot of the rule
list, then run the loop. -/
def run_evaluation (creg : ConditionRegistry) (areg : ActionRegistry)
    (s : ExpertSystem) : Except PyErr ExpertSystem :=
  runRules creg areg (pySortRules s.rules) s

/-- `BaseExpertSystem.add_fact(name, value)`: `self.fact_base.set(...)`. -/
def add_fact (s : ExpertSystem) (name : String) (value : Value) :
    ExpertSystem :=
  { s with fact_base := s.fact_base.set name value }

/-- `BaseExpertSystem.add_facts(facts)`: `self.fact_base.update(facts)`. -/
def add_facts (s : ExpertSystem) (facts : List (String × Value)) :
    ExpertSystem :=
  { s with fact_base := s.fact_base.update facts }

/-- `BaseExpertSystem.add_rule(rule)`. -/
def add_rule (s : ExpertSystem) (r : Rule) : ExpertSystem :=
  { s with rules := s.rules ++ [r] }

/-- `BaseExpertSystem.reset()`: clears the fact base, the fired-rules
log and the results dict (the rule list is kept). -/
def reset (s : ExpertSystem) : ExpertSystem :=
  { s with fact_base := [], fired_rules := [], results := [] }

/-- `BaseExpertSystem.get_results()` (a copy). -/
def get_results (s : ExpertSystem) : List (String × Value) := s.results

/-! ## `student.py` : class `StudentExpertSystem`

The student system registers its three handlers as *bound methods*
(`self._handle_set_result`, ...), so a registered callable has the
signature of the method without `self`.  `execute_action` nevertheless
calls `handler(self, **action.parameters)`, so the engine object arrives
as an extra positional argument and is bound to the first declared
parameter by CPython's argument-binding rules.  The binding rules are
modelled by `bindCall` below; the engine object is the opaque
`Value.obj`. -/

/-- A declared parameter of a Python function: name and optional
default. -/
structure Param where
  name : String
  default : Option Value := Option.none

/-- CPython argument binding for a call
`f(*pos, **kwargs)` against the declared parameter list:
positional arguments fill parameters left to right (too many raises
`TypeError`); a keyword argument naming an already positionally-bound
parameter raises `TypeError("got multiple values for argument ...")`;
a keyword argument matching no parameter raises `TypeError`; remaining
parameters take their keyword value, else their default, else raise
`TypeError` for a missing required argument.  Returns the bound
environment. -/
def bindCall (params : List Param) (pos : List Value)
    (kwargs : List (String × Value)) :
    Except PyErr (List (String × Value)) :=
  if params.length < pos.length then
    .error (.typeError "too many positional arguments")
  else
    let posNames := (params.take pos.length).map Param.name
    match kwargs.find? (fun kv => posNames.contains kv.1) with
    | some kv =>
      .error (.typeError ("got multiple values for argument " ++ kv.1))
    | _ =>
      match kwargs.find?
          (fun kv => !((params.map Param.name).contains kv.1)) with
      | some kv =>
        .error (.typeError ("got an unexpected keyword argument " ++ kv.1))
      | _ =>
        match bindRest (params.drop pos.length) kwargs with
        | .error e => .error e
        | .ok rest => .ok (posNames.zip pos ++ rest)
where
  /-- Bind the parameters not covered positionally. -/
  bindRest : List Param → List (String × Value) →
      Except PyErr (List (String × Value))
  | [], _ => .ok []
  | p :: ps, kwargs =>
    match dictGet? kwargs p.name, p.default with
    | some v, _ =>
      match bindRest ps kwargs with
      | .error e => .error e
      | .ok r => .ok ((p.name, v) :: r)
    | Option.none, some d =>
      match bindRest ps kwargs with
      | .error e => .error e
      | .ok r => .ok ((p.name, d) :: r)
    | Option.none, Option.none =>
      .error (.typeError ("missing required argument " ++ p.name))

/-- Read a bound argument (present by construction after a successful
`bindCall`; an absent name is reported as an error to stay total). -/
def boundArg (b : List (String × Value)) (name : String) :
    Except PyErr Value :=
  match dictGet? b name with
  | some v => .ok v
  | _ => .error (.typeError ("missing bound argument " ++ name))

/-- `self.results[key]` (raises `KeyError` when absent). -/
def resultsGet (s : ExpertSystem) (key : String) : Except PyErr Value :=
  match dictGet? s.results key with
  | some v => .ok v
  | _ => .error (.keyError key)

/-- `self.results[key] = v`. -/
def resultsSet (s : ExpertSystem) (key : String) (v : Value) :
    ExpertSystem :=
  { s with results := dictSet s.results key v }

/-- `self.results[key].append(v)`: `KeyError` when the key is absent,
`AttributeError` when the stored value is not a list. -/
def resultsAppend (s : ExpertSystem) (key : String) (v : Value) :
    Except PyErr ExpertSystem :=
  match dictGet? s.results key with
  | some (.list l) => .ok (resultsSet s key (.list (l ++ [v])))
  | some _ => .error (.attributeError "object has no attribute append")
  | _ => .error (.keyError key)

/-- The bound method `StudentExpertSystem._handle_set_result`
(declared parameters `probability, status, recommendation`), as invoked
by `execute_action`. -/
def handleSetResult : HandlerFn := fun s pos kwargs =>
  match bindCall
      [{ name := "probability" }, { name := "status" },
       { name := "recommendation" }] pos kwargs with
  | .error e => .error e
  | .ok b =>
    match boundArg b "probability", boundArg b "status",
        boundArg b "recommendation" with
    | .ok p, .ok st, .ok rec =>
      resultsAppend (resultsSet (resultsSet s "admission_probability" p)
        "status" st) "recommendations" rec
    | .error e, _, _ => .error e
    | _, .error e, _ => .error e
    | _, _, .error e => .error e

/-- The bound method `StudentExpertSystem._handle_add_recommendation`
(declared parameters `recommendation, probability=None, status=None`). -/
def handleAddRecommendation : HandlerFn := fun s pos kwargs =>
  match bindCall
      [{ name := "recommendation" },
       { name := "probability", default := some .none },
       { name := "status", default := some .none }] pos kwargs with
  | .error e => .error e
  | .ok b =>
    match boundArg b "recommendation", boundArg b "probability",
        boundArg b "status" with
    | .ok rec, .ok p, .ok st =>
      step1 s rec p st
    | .error e, _, _ => .error e
    | _, .error e, _ => .error e
    | _, _, .error e => .error e
where
  /-- `if probability and probability > self.results[...]: ...` then the
  status clause, then the append. -/
  step1 (s : ExpertSystem) (rec p st : Value) :
      Except PyErr ExpertSystem :=
    if truthy (some p) then
      match resultsGet s "admission_probability" with
      | .error e => .error e
      | .ok cur =>
        match pyLt cur p with
        | .error e => .error e
        | .ok true => step2 (resultsSet s "admission_probability" p) rec st
        | .ok false => step2 s rec st
    else step2 s rec st
  /-- `if status and self.results['status'] == 'N/A': ...` then the
  append. -/
  step2 (s : ExpertSystem) (rec st : Value) : Except PyErr ExpertSystem :=
    if truthy (some st) then
      match resultsGet s "status" with
      | .error e => .error e
      | .ok cur =>
        if pyEq cur (.str "N/A") then
          resultsAppend (resultsSet s "status" st) "recommendations" rec
        else
          resultsAppend s "recommendations" rec
    else resultsAppend s "recommendations" rec

/-- The bound method `StudentExpertSystem._handle_update_probability`
(declared parameter `delta`):
`self.results['admission_probability'] =
  max(0, min(100, self.results['admission_probability'] + delta))`. -/
def handleUpdateProbability : HandlerFn := fun s pos kwargs =>
  match bindCall [{ name := "delta" }] pos kwargs with
  | .error e => .error e
  | .ok b =>
    match boundArg b "delta" with
    | .error e => .error e
    | .ok d =>
      match resultsGet s "admission_probability" with
      | .error e => .error e
      | .ok cur =>
        match toNum? cur, toNum? d with
        | some c, some dq =>
          .ok (resultsSet s "admission_probability"
            (.num (max 0 (min 100 (c + dq)))))
        | _, _ => .error (.typeError "unsupported operand types for +")

/-- `StudentExpertSystem._setup_custom_actions`: registers the three
bound methods. -/
def studentActionRegistry : ActionRegistry :=
  ((ActionRegistry.register ⟨[]⟩ "set_result" handleSetResult).register
    "add_recommendation" handleAddRecommendation).register
    "update_probability" handleUpdateProbability

/-- `StudentExpertSystem._setup_custom_evaluators` registers nothing, so
the condition registry is the default one. -/
def studentConditionRegistry : ConditionRegistry := ConditionRegistry.new

/-- A freshly constructed `StudentExpertSystem`: the base constructor
leaves every collection empty, then the subclass `__init__` replaces
`results` with the seeded dict. -/
def StudentExpertSystem.new : ExpertSystem :=
  { fact_base := []
    rules := []
    fired_rules := []
    results :=
      [("admission_probability", .num 0),
       ("recommendations", .list []),
       ("status", .str "N/A")] }

/-! ## Specification-side definitions

These definitions follow the wording of the specification (not the
source); the theorems below compare the source-side embedding against
them. -/

/-- The specification's rule order on index-tagged rules: `(i, a)`
before `(j, b)` when `a` has strictly higher priority, or equal priority
and `a` was registered no later (`i ≤ j`) — "priority descending, ties
broken by original registration order". -/
def ruleLex (p q : ℕ × Rule) : Prop :=
  q.2.priority < p.2.priority ∨
    (p.2.priority = q.2.priority ∧ p.1 ≤ q.1)

instance : DecidableRel ruleLex := fun p q => by
  unfold ruleLex; infer_instance

/-- Modelled from the spec: "rules sorted by priority descending, ties
broken by original registration order (stable)" — tag each rule with its
registration index, sort by the specification's order `ruleLex`, and
drop the tags. -/
def stableDescSortSpec (l : List Rule) : List Rule :=
  (List.insertionSort ruleLex l.enum).map Prod.snd

/-- The registered handlers of an action registry leave the fired-rules
log untouched whenever they succeed.  The student handlers only read and
write `results`, so the student registry satisfies this; a hypothetical
custom handler mutating `self.fired_rules` would not. -/
def preservesFired (areg : ActionRegistry) : Prop :=
  ∀ f, f ∈ areg.handlers.map Prod.snd →
    ∀ s pos kw s', f s pos kw = .ok s' →
      s'.fired_rules = s.fired_rules

/-! ## Concrete systems used by the closed theorems -/

/-- The single rule of end-to-end scenario A (`priority=8`, three
`between` conditions, one `set_result` action). -/
def scenarioARule : Rule :=
  { name := "moderate_profile"
    conditions :=
      [⟨"assignments", "between", .list [.num 50, .num 60]⟩,
       ⟨"report", "between", .list [.num 50, .num 70]⟩,
       ⟨"test", "between", .list [.num 40, .num 60]⟩]
    actions :=
      [{ action_type := "set_result"
         parameters :=
           [("probability", .num 60), ("status", .str "moderate"),
            ("recommendation", .str "improve all")] }]
    priority := 8 }

/-- A `StudentExpertSystem` holding scenario A's rule and facts
`{assignments: 55, report: 60, test: 45}`. -/
def scenarioASystem : ExpertSystem :=
  add_facts { StudentExpertSystem.new with rules := [scenarioARule] }
    [("assignments", .num 55), ("report", .num 60), ("test", .num 45)]

/-- A rule with no conditions and no actions: vacuously satisfied. -/
def alwaysRule : Rule :=
  { name := "always", conditions := [], actions := [] }

/-- A bare engine holding only `alwaysRule`. -/
def alwaysSystem : ExpertSystem :=
  { fact_base := [], rules := [alwaysRule], fired_rules := [],
    results := [] }

/-! ## Helper lemmas -/

/-- A value found by dict lookup is among the dict's values. -/
theorem dictGet?_mem {α : Type} {d : List (String × α)} {k : String}
    {v : α} (h : dictGet? d k = some v) : v ∈ d.map Prod.snd := by
  unfold dictGet? at h
  cases hf : d.find? (fun p => p.1 == k) with
  | none => rw [hf] at h; cases h
  | some p =>
    rw [hf, Option.map_some'] at h
    injection h with h
    subst h
    exact List.mem_map_of_mem Prod.snd (List.mem_of_find?_eq_some hf)

/-- A successful `execute_action` leaves `fired_rules` unchanged when
every registered handler does. -/
theorem execute_action_fired {areg : ActionRegistry}
    (hp : preservesFired areg) (a : Action) (s s' : ExpertSystem)
    (h : execute_action areg a s = .ok s') :
    s'.fired_rules = s.fired_rules := by
  unfold execute_action at h
  cases hg : areg.get a.action_type with
  | error e => rw [hg] at h; cases h
  | ok f =>
    rw [hg] at h
    unfold ActionRegistry.get at hg
    cases hd : dictGet? areg.handlers a.action_type with
    | none => rw [hd] at hg; cases hg
    | some g =>
      rw [hd] at hg
      injection hg with hg
      subst hg
      exact hp g (dictGet?_mem hd) s _ _ s' h

/-- A successful action-list execution leaves `fired_rules` unchanged
when every registered handler does. -/
theorem execActions_fired {areg : ActionRegistry}
    (hp : preservesFired areg) :
    ∀ (acts : List Action) (s s' : ExpertSystem),
      execActions areg acts s = .ok s' →
      s'.fired_rules = s.fired_rules
  | [], s, s', h => by
    injection h with h
    rw [← h]
  | a :: acts, s, s', h => by
    unfold execActions at h
    cases he : a.execute areg s with
    | error e => rw [he] at h; cases h
    | ok s1 =>
      rw [he] at h
      have h1 : s1.fired_rules = s.fired_rules :=
        execute_action_fired hp a s s1 he
      rw [execActions_fired hp acts s1 s' h, h1]

/-- Through a successful pass of the firing loop, `fired_rules` only
grows, by a subsequence of the processed rules' names in processing
order. -/
theorem runRules_fired {creg : ConditionRegistry}
    {areg : ActionRegistry} (hp : preservesFired areg) :
    ∀ (rs : List Rule) (s s' : ExpertSystem),
      runRules creg areg rs s = .ok s' →
      ∃ fs, s'.fired_rules = s.fired_rules ++ fs ∧
        List.Sublist fs (rs.map Rule.name)
  | [], s, s', h => by
    injection h with h
    subst h
    exact ⟨[], by simp, by simp⟩
  | r :: rs, s, s', h => by
    unfold runRules at h
    cases hc : r.check s.fact_base creg with
    | error e => rw [hc] at h; cases h
    | ok b =>
      rw [hc] at h
      cases b with
      | false =>
        obtain ⟨fs, h1, h2⟩ := runRules_fired hp rs s s' h
        exact ⟨fs, h1, h2.cons r.name⟩
      | true =>
        cases he : r.execute areg
            { s with fired_rules := s.fired_rules ++ [r.name] } with
        | error e => rw [he] at h; cases h
        | ok s1 =>
          rw [he] at h
          obtain ⟨fs, h1, h2⟩ := runRules_fired hp rs s1 s' h
          have h3 : s1.fired_rules = s.fired_rules ++ [r.name] :=
            execActions_fired hp r.actions _ s1 he
          refine ⟨r.name :: fs, ?_, h2.cons₂ r.name⟩
          rw [h1, h3]
          simp

/-- On index-tagged rules whose index exceeds `off`, the
specification's order `ruleLex` against `(off, a)` coincides with the
engine's comparison `ruleGe`. -/
theorem ruleLex_iff_ruleGe (a : Rule) (off : ℕ) (p : ℕ × Rule)
    (hp : off < p.1) : ruleLex (off, a) p ↔ ruleGe a p.2 := by
  unfold ruleLex ruleGe
  constructor
  · rintro (h | ⟨h, _⟩)
    · exact le_of_lt h
    · exact le_of_eq h.symm
  · intro h
    rcases lt_or_eq_of_le h with h2 | h2
    · exact Or.inl h2
    · exact Or.inr ⟨h2.symm, le_of_lt hp⟩

/-- Inserting into an index-tagged list commutes with dropping the
tags, provided the incoming index is smaller than every present index. -/
theorem orderedInsert_map_snd (a : Rule) (off : ℕ) :
    ∀ (S : List (ℕ × Rule)), (∀ x ∈ S, off < x.1) →
      List.orderedInsert ruleGe a (S.map Prod.snd) =
        (List.orderedInsert ruleLex (off, a) S).map Prod.snd
  | [], _ => rfl
  | p :: S, h => by
    have hp : off < p.1 := h p (List.mem_cons_self p S)
    have hiff := ruleLex_iff_ruleGe a off p hp
    by_cases hc : ruleGe a p.2
    · rw [List.map_cons, List.orderedInsert, List.orderedInsert,
        if_pos hc, if_pos (hiff.mpr hc)]
      simp
    · rw [List.map_cons, List.orderedInsert, List.orderedInsert,
        if_neg hc, if_neg (fun hl => hc (hiff.mp hl)), List.map_cons,
        orderedInsert_map_snd a off S
          (fun x hx => h x (List.mem_cons_of_mem p hx))]

/-- The engine's insertion sort equals the specification's
index-tagged sort with the tags dropped, for any starting index. -/
theorem insertionSort_enumFrom :
    ∀ (l : List Rule) (off : ℕ),
      List.insertionSort ruleGe l =
        (List.insertionSort ruleLex (l.enumFrom off)).map Prod.snd
  | [], _ => rfl
  | a :: t, off => by
    have ih := insertionSort_enumFrom t (off + 1)
    have hge : ∀ x ∈ List.insertionSort ruleLex
        (t.enumFrom (off + 1)), off < x.1 := by
      intro x hx
      have hx2 : x ∈ t.enumFrom (off + 1) :=
        (List.perm_insertionSort ruleLex
          (t.enumFrom (off + 1))).mem_iff.mp hx
      obtain ⟨i, r⟩ := x
      have hle :=
        (List.mk_mem_enumFrom_iff_le_and_getElem?_sub.mp hx2).1
      omega
    show List.orderedInsert ruleGe a (List.insertionSort ruleGe t) = _
    rw [ih]
    have henum : (a :: t).enumFrom off =
        (off, a) :: t.enumFrom (off + 1) := rfl
    rw [henum]
    show _ = (List.orderedInsert ruleLex (off, a)
        (List.insertionSort ruleLex (t.enumFrom (off + 1)))).map Prod.snd
    exact orderedInsert_map_snd a off _ hge

/-- The sort used by `run_evaluation` is exactly the specification's
stable priority-descending sort. -/
theorem pySortRules_eq_spec (l : List Rule) :
    pySortRules l = stableDescSortSpec l :=
  insertionSort_enumFrom l 0

/-! ## Claim theorems -/

/-- C1: In a freshly constructed `ConditionRegistry` the names `gte`,
`lte`, `gt`, `lt`, `between`, `eq`, `in`, `contains` are all registered —
but, contrary to the claim, `neq` is *not* registered, and the evaluator
retrieved under `"eq"` is the structural **inequality** predicate
`LogicalEvaluator.neq` (it returns `false` on the equal pair `(1, 1)`,
while the intended `LogicalEvaluator.eq` returns `true` there):
`_register_defaults` registers `LogicalEvaluator.neq` under the key
`LogicalEvaluator.eq.__name__`. -/
theorem default_registry_eq_neq_swapped :
    (["gte", "lte", "gt", "lt", "between", "eq", "in", "contains"].all
      ConditionRegistry.new.has) = true
    ∧ ConditionRegistry.new.has "neq" = false
    ∧ ConditionRegistry.new.get "eq" = .ok LogicalEvaluator.neq
    ∧ LogicalEvaluator.neq (.num 1) (.num 1) = .ok false
    ∧ LogicalEvaluator.eq (.num 1) (.num 1) = .ok true :=
  ⟨rfl, rfl, rfl, rfl, rfl⟩

/-- C2: in end-to-end scenario A all three `between` conditions are
satisfied, but `run_evaluation` does not complete: executing the
`set_result` action calls the bound method
`self._handle_set_result` as `handler(self, **parameters)`, so the
engine object binds positionally to the parameter `probability` and the
keyword `probability=60` duplicates it — the pass raises `TypeError`
instead of producing the claimed results. -/
theorem scenarioA_raises_type_error :
    scenarioARule.check scenarioASystem.fact_base
      studentConditionRegistry = .ok true
    ∧ run_evaluation studentConditionRegistry studentActionRegistry
        scenarioASystem =
      .error (.typeError "got multiple values for argument probability") :=
  ⟨rfl, rfl⟩

/-- C4: a condition whose fact is absent from the fact store evaluates
to `false` and raises nothing, for every fact store, every operator name
(registered or not) and every expected value: the missing-fact test
precedes the registry lookup. -/
theorem absent_fact_evaluates_false (fb : FactBase)
    (reg : ConditionRegistry) (name op : String) (v : Value)
    (h : fb.has name = false) :
    Condition.evaluate ⟨name, op, v⟩ fb reg = .ok false := by
  unfold Condition.evaluate
  simp [h]

/-- Witness for C4: the unregistered operator name `neq` on an empty
fact store. -/
theorem absent_fact_evaluates_false_witness :
    Condition.evaluate ⟨"speed", "neq", .num 0⟩ []
      ConditionRegistry.new = .ok false :=
  absent_fact_evaluates_false [] ConditionRegistry.new "speed" "neq"
    (.num 0) rfl

/-- C8: `FactBase.set` with `overwrite=False` is a no-op exactly when a
truthy value is already stored under the name (a stored `0`, `""` or
`False` is overwritten as if absent), and stores the value otherwise;
with `overwrite=True` it always stores the value. -/
theorem set_overwrite_semantics (fb : FactBase) (name : String)
    (v : Value) :
    fb.set name v false =
      (if truthy (dictGet? fb name) then fb else dictSet fb name v)
    ∧ fb.set name v true = dictSet fb name v := by
  constructor
  · unfold FactBase.set
    cases h : truthy (dictGet? fb name) <;> simp [h]
  · unfold FactBase.set
    simp

/-- C9: reset is not idempotent for `StudentExpertSystem`: with the same
(empty) rule list and the same (no) new facts, a freshly constructed
engine finishes `run_evaluation` with its seeded results dict, while a
reset engine finishes with an empty results dict — `reset` clears
`results` instead of restoring the subclass's initial results. -/
theorem student_reset_differs_from_fresh :
    run_evaluation studentConditionRegistry studentActionRegistry
        StudentExpertSystem.new = .ok StudentExpertSystem.new
    ∧ run_evaluation studentConditionRegistry studentActionRegistry
        (reset StudentExpertSystem.new) =
      .ok (reset StudentExpertSystem.new)
    ∧ (reset StudentExpertSystem.new).results = []
    ∧ StudentExpertSystem.new.results ≠ [] := by
  refine ⟨rfl, rfl, rfl, ?_⟩
  simp [StudentExpertSystem.new]

/-- With a registered operator, `Condition.evaluate` always returns a
boolean and never raises: the only raising path is the registry lookup. -/
theorem evaluate_ok_of_has {reg : ConditionRegistry} {c : Condition}
    (fb : FactBase) (h : reg.has c.operator = true) :
    ∃ b, c.evaluate fb reg = .ok b := by
  unfold Condition.evaluate
  cases hf : fb.has c.fact_name with
  | false => exact ⟨false, by simp [hf]⟩
  | true =>
    unfold ConditionRegistry.has at h
    cases hd : dictGet? reg.evaluators c.operator with
    | none => rw [hd] at h; simp at h
    | some f =>
      unfold ConditionRegistry.get
      rw [hd]
      simp only [hf, Bool.not_true, Bool.false_eq_true, if_false]
      cases hr : f (fb.get c.fact_name) c.value with
      | ok b => exact ⟨b, rfl⟩
      | error e => exact ⟨false, rfl⟩

/-- `checkConditions` returns a boolean (no exception) as soon as every
condition's operator is registered. -/
theorem checkConditions_ok {reg : ConditionRegistry} (fb : FactBase) :
    ∀ (cs : List Condition),
      (∀ c ∈ cs, reg.has c.operator = true) →
      ∃ b, checkConditions fb reg cs = .ok b
  | [], _ => ⟨true, rfl⟩
  | c :: cs, h => by
    obtain ⟨b, hb⟩ :=
      evaluate_ok_of_has fb (h c (List.mem_cons_self c cs))
    unfold checkConditions
    rw [hb]
    cases b with
    | false => exact ⟨false, rfl⟩
    | true =>
      exact checkConditions_ok fb cs
        (fun c' hc' => h c' (List.mem_cons_of_mem c hc'))

/-- C5: an exception raised by the operator function itself is caught by
`Condition.evaluate` and yields `false` rather than propagating; and a
rule whose conditions all use registered operators can never abort its
check with an exception, so a malformed condition cannot abort its rule
or the pass. -/
theorem operator_exception_degrades_to_false (fb : FactBase)
    (reg : ConditionRegistry) (c : Condition) (f : EvalFn) (e : PyErr)
    (hget : reg.get c.operator = .ok f)
    (herr : f (fb.get c.fact_name) c.value = .error e) :
    c.evaluate fb reg = .ok false
    ∧ ∀ r : Rule, (∀ c' ∈ r.conditions, reg.has c'.operator = true) →
        ∃ b, r.check fb reg = .ok b := by
  constructor
  · unfold Condition.evaluate
    cases hf : fb.has c.fact_name with
    | false => simp [hf]
    | true =>
      simp only [hf, Bool.not_true, Bool.false_eq_true, if_false]
      simp only [hget, herr]
  · exact fun r h => checkConditions_ok fb r.conditions h

/-- Witness for C5: `between` with the non-pair expected value `5`
raises `TypeError` on unpacking; the condition evaluates to `false`. -/
theorem operator_exception_degrades_to_false_witness :
    Condition.evaluate ⟨"x", "between", .num 5⟩ [("x", .num 1)]
      ConditionRegistry.new = .ok false :=
  (operator_exception_degrades_to_false [("x", .num 1)]
    ConditionRegistry.new ⟨"x", "between", .num 5⟩
    NumericRangeEvaluator.between
    (.typeError "cannot unpack non-sequence") rfl rfl).1

/-- C6: on numbers, the built-in `between` operator applied to `v` and
the pair `(lo, hi)` returns `true` exactly when `lo ≤ v < hi`; in
particular the upper bound is exclusive: `between(10, (5, 10))` is
`false`. -/
theorem between_range_semantics (v lo hi : ℚ) :
    NumericRangeEvaluator.between (.num v) (.list [.num lo, .num hi]) =
      .ok (decide (lo ≤ v ∧ v < hi))
    ∧ NumericRangeEvaluator.between (.num 10)
        (.list [.num 5, .num 10]) = .ok false := by
  constructor
  · have h0 : NumericRangeEvaluator.between (.num v)
        (.list [.num lo, .num hi]) =
        (match pyLe (.num lo) (.num v) with
         | .error e => .error e
         | .ok false => .ok false
         | .ok true => pyLt (.num v) (.num hi)) := rfl
    have h1 : pyLe (.num lo) (.num v) = .ok (decide (lo ≤ v)) := rfl
    have h2 : pyLt (.num v) (.num hi) = .ok (decide (v < hi)) := rfl
    rw [h0, h1]
    by_cases h : lo ≤ v
    · simp only [decide_eq_true h, h2]
      simp [h]
    · simp only [decide_eq_false h]
      simp [h]
  · rfl

/-- For all operand strings, the error message of an unknown-operator
lookup differs from that of an unknown-action-type lookup. -/
theorem unknown_msgs_distinct (n t : String) :
    ("Unknown operator: " ++ n : String) ≠
      "Unknown action type: " ++ t := by
  intro h
  have hd := congrArg (fun s : String => s.data.take 18) h
  simp only [String.data_append] at hd
  rw [List.take_append_of_le_length (by decide),
    List.take_append_of_le_length (by decide)] at hd
  exact absurd hd (by decide)

/-- C7: looking up a never-registered operator name or action type
raises a `ValueError` carrying a message specific to the registry (the
two errors are distinct for all names), never returns, and an unknown
action type makes `execute_action` raise before any handler runs. -/
theorem unknown_registry_lookups_error (creg : ConditionRegistry)
    (areg : ActionRegistry) (n : String) (a : Action)
    (s : ExpertSystem) (hc : creg.has n = false)
    (ha : areg.has a.action_type = false) :
    creg.get n = .error (.valueError ("Unknown operator: " ++ n))
    ∧ areg.get a.action_type =
        .error (.valueError
          ("Unknown action type: " ++ a.action_type))
    ∧ PyErr.valueError ("Unknown operator: " ++ n) ≠
        PyErr.valueError ("Unknown action type: " ++ a.action_type)
    ∧ execute_action areg a s =
        .error (.valueError
          ("Unknown action type: " ++ a.action_type)) := by
  have h1 : creg.get n =
      .error (.valueError ("Unknown operator: " ++ n)) := by
    unfold ConditionRegistry.get
    unfold ConditionRegistry.has at hc
    cases hd : dictGet? creg.evaluators n with
    | none => rfl
    | some f => rw [hd] at hc; simp at hc
  have h2 : areg.get a.action_type =
      .error (.valueError ("Unknown action type: " ++ a.action_type)) := by
    unfold ActionRegistry.get
    unfold ActionRegistry.has at ha
    cases hd : dictGet? areg.handlers a.action_type with
    | none => rfl
    | some f => rw [hd] at ha; simp at ha
  refine ⟨h1, h2, ?_, ?_⟩
  · intro h
    injection h with h
    exact unknown_msgs_distinct n a.action_type h
  · unfold execute_action
    rw [h2]

/-- Witness for C7: the unregistered operator `frobnicate` and the
unregistered action type `no_such_action` on the student registries. -/
theorem unknown_registry_lookups_error_witness :
    ConditionRegistry.new.get "frobnicate" =
      .error (.valueError ("Unknown operator: " ++ "frobnicate")) :=
  (unknown_registry_lookups_error ConditionRegistry.new
    studentActionRegistry "frobnicate" ⟨"no_such_action", []⟩
    alwaysSystem rfl rfl).1

/-- C3: `run_evaluation` processes the rules in the specification's
order — priority descending, ties in original registration order
(`stableDescSortSpec`); when the registered handlers leave the log
alone, a successful pass appends the fired rules' names to the log as a
subsequence of that order; and a satisfied rule's name is appended to
the log *before* its actions execute, the actions running in declared
order (`execActions` is the left-to-right fold over the action list). -/
theorem rules_fire_in_stable_priority_order (creg : ConditionRegistry)
    (areg : ActionRegistry) (s : ExpertSystem)
    (hp : preservesFired areg) :
    run_evaluation creg areg s =
      runRules creg areg (stableDescSortSpec s.rules) s
    ∧ (∀ s', run_evaluation creg areg s = .ok s' →
        ∃ fs, s'.fired_rules = s.fired_rules ++ fs ∧
          List.Sublist fs ((stableDescSortSpec s.rules).map Rule.name))
    ∧ (∀ (r : Rule) (rs : List Rule) (t : ExpertSystem),
        r.check t.fact_base creg = .ok true →
        runRules creg areg (r :: rs) t =
          match execActions areg r.actions
              { t with fired_rules := t.fired_rules ++ [r.name] } with
          | .error e => .error e
          | .ok t' => runRules creg areg rs t') := by
  refine ⟨?_, ?_, ?_⟩
  · unfold run_evaluation
    rw [pySortRules_eq_spec]
  · intro s' h
    unfold run_evaluation at h
    rw [pySortRules_eq_spec] at h
    exact runRules_fired hp (stableDescSortSpec s.rules) s s' h
  · intro r rs t hcheck
    conv_lhs => rw [runRules]
    simp only [hcheck, Rule.execute]

/-- Witness for C3: the specification order and the engine's pass agree
on a concrete one-rule system with an empty handler table. -/
theorem rules_fire_in_stable_priority_order_witness :
    run_evaluation ConditionRegistry.new (⟨[]⟩ : ActionRegistry)
      alwaysSystem =
      runRules ConditionRegistry.new (⟨[]⟩ : ActionRegistry)
        (stableDescSortSpec alwaysSystem.rules) alwaysSystem :=
  (rules_fire_in_stable_priority_order ConditionRegistry.new ⟨[]⟩
    alwaysSystem (by intro f hf; exact absurd hf (by simp))).1

/-- C10: `run_evaluation` never clears or rewrites the fired-rules log
at the start of a pass: when the registered handlers leave the log
alone, a completed pass leaves the log equal to its previous value
followed by this pass's fired names; concretely, running a
vacuously-satisfied rule twice without reset logs its name twice. -/
theorem fired_rules_append_only (creg : ConditionRegistry)
    (areg : ActionRegistry) (s s' : ExpertSystem)
    (hp : preservesFired areg)
    (h : run_evaluation creg areg s = .ok s') :
    (∃ fs, s'.fired_rules = s.fired_rules ++ fs)
    ∧ (∃ s1 s2,
        run_evaluation ConditionRegistry.new (⟨[]⟩ : ActionRegistry)
          alwaysSystem = .ok s1 ∧
        run_evaluation ConditionRegistry.new (⟨[]⟩ : ActionRegistry)
          s1 = .ok s2 ∧
        s1.fired_rules = ["always"] ∧
        s2.fired_rules = ["always", "always"]) := by
  constructor
  · obtain ⟨fs, h1, _⟩ :=
      runRules_fired hp (pySortRules s.rules) s s' h
    exact ⟨fs, h1⟩
  · exact ⟨_, _, rfl, rfl, rfl, rfl⟩

/-- Witness for C10: the pass over `alwaysSystem` appends to the
initially empty log. -/
theorem fired_rules_append_only_witness :
    ∃ fs, ({ fact_base := [], rules := [alwaysRule],
             fired_rules := ["always"], results := [] } :
           ExpertSystem).fired_rules =
      alwaysSystem.fired_rules ++ fs :=
  (fired_rules_append_only ConditionRegistry.new ⟨[]⟩ alwaysSystem
    { fact_base := [], rules := [alwaysRule],
      fired_rules := ["always"], results := [] }
    (by intro f hf; exact absurd hf (by simp)) rfl).1

end Expert
